import Mathlib

/-!
Verification development for the spreadsheet extraction / reconciliation /
write-back engine of this repository (source: `drug_comparison.py`).

The Python functions under scrutiny are shallowly embedded as executable
Lean definitions over a `Cell` grid:

* `normalize_drug_name`      → `DrugCmp.normalizeDrugName`
* `_is_numeric_cell`         → `DrugCmp.isNumericCell`
* `_looks_like_indication_section` → `DrugCmp.looksLikeIndicationSection`
* `parse_details_sheet`      → `DrugCmp.parseDetailsSheet`
* `get_details_sheet_row_col_map`  → `DrugCmp.rowColMap`
* `compare_details`          → `DrugCmp.compareDetails`
* `fill_details_sheet_to_excel`    → `DrugCmp.fillDetailsFile` / `DrugCmp.atomicSave`

Modelling conventions:
* spreadsheet numbers are exact rationals (IEEE-754 rounding, `inf` and
  `nan` string literals, and underscore digit separators are outside the
  model); pandas `NaN` / blank cells are `Cell.empty`;
* Python `str` operations are re-implemented structurally on `Char` lists
  (`pyStrip`, `pyLower`, ...) so that every definition kernel-evaluates;
  they strip / lower ASCII, which covers all strings the program compares;
* `str()` applied to a numeric cell is rendered by `pyStr`; the exact float
  rendering is irrelevant to every branch of the program (all branch tests
  look for alphabetic substrings), so a digits-only rendering is used.
-/

namespace DrugCmp

/-! ### Python-style string primitives (structural, kernel-evaluable) -/

/-- Lower-case an ASCII letter, as Python `str.lower` does on ASCII input. -/
def pyCharLower (c : Char) : Char :=
  if 'A' ≤ c ∧ c ≤ 'Z' then Char.ofNat (c.toNat + 32) else c

/-- Python `str.lower` (ASCII fragment). -/
def pyLower (s : String) : String :=
  ⟨s.data.map pyCharLower⟩

/-- Python `str.strip`: drop whitespace from both ends. -/
def pyStrip (s : String) : String :=
  ⟨((s.data.dropWhile Char.isWhitespace).reverse.dropWhile Char.isWhitespace).reverse⟩

/-- Containment of `needle` as a contiguous sublist of `hay`. -/
def listHas (hay needle : List Char) : Bool :=
  needle.isPrefixOf hay ||
    match hay with
    | [] => false
    | _ :: t => listHas t needle

/-- Python `needle in hay` for strings. -/
def strContains (hay needle : String) : Bool :=
  listHas hay.data needle.data

/-- Python `s.startswith(p)`. -/
def pyStartsWith (s p : String) : Bool :=
  p.data.isPrefixOf s.data

/-- Python `s[:n]` (character based). -/
def pyTake (s : String) (n : Nat) : String :=
  ⟨s.data.take n⟩

/-- Python `len(s)` (character based). -/
def strLen (s : String) : Nat :=
  s.data.length

/-- Lexicographic (code-point) strict order on char lists, as Python compares strings. -/
def charListLt : List Char → List Char → Bool
  | [], [] => false
  | [], _ :: _ => true
  | _ :: _, [] => false
  | a :: as, b :: bs => if a = b then charListLt as bs else decide (a < b)

/-- Python `s1 < s2` on strings. -/
def strLtB (a b : String) : Bool :=
  charListLt a.data b.data

/-- Decimal digits of a natural number (fuel-structural). -/
def natDigitsAux : Nat → Nat → List Char
  | 0, _ => []
  | f + 1, n => if n < 10 then [Char.ofNat (48 + n)] else natDigitsAux f (n / 10) ++ [Char.ofNat (48 + n % 10)]

/-- Decimal digits of a natural number. -/
def natDigits (n : Nat) : List Char :=
  natDigitsAux (n + 1) n

/-- Value of a list of decimal digit characters. -/
def digitsVal (cs : List Char) : Nat :=
  cs.foldl (fun n c => n * 10 + (c.toNat - 48)) 0

/-- Python `s.replace(pat, rep)` on char lists, left-to-right, non-overlapping
(fuel-structural; the fuel is the list length, which always suffices). -/
def replFuel (pat rep : List Char) : Nat → List Char → List Char
  | _, [] => []
  | 0, l => l
  | f + 1, c :: rest =>
    if pat ≠ [] ∧ pat.isPrefixOf (c :: rest) then
      rep ++ replFuel pat rep f (rest.drop (pat.length - 1))
    else
      c :: replFuel pat rep f rest

/-- Python `s.replace(pat, rep)` for a non-empty pattern. -/
def pyReplace (s pat rep : String) : String :=
  ⟨replFuel pat.data rep.data s.data.length s.data⟩

/-- Whitespace-separated words of a char list (accumulator holds the current
word reversed), as Python `str.split()` produces. -/
def wordsAux : List Char → List Char → List (List Char)
  | [], acc => if acc.isEmpty then [] else [acc.reverse]
  | c :: rest, acc =>
    if c.isWhitespace then
      (if acc.isEmpty then wordsAux rest [] else acc.reverse :: wordsAux rest [])
    else
      wordsAux rest (c :: acc)

/-- Join words with single spaces. -/
def joinWords : List (List Char) → List Char
  | [] => []
  | [w] => w
  | w :: ws => w ++ ' ' :: joinWords ws

/-- Python `" ".join(s.strip().split())`: collapse whitespace runs. -/
def pyNormSpaces (s : String) : String :=
  ⟨joinWords (wordsAux s.data [])⟩

/-! ### Cells and numeric coercion -/

/-- One spreadsheet cell: blank (pandas `NaN`), a number, or text. -/
inductive Cell where
  | empty : Cell
  | num : ℚ → Cell
  | str : String → Cell
deriving DecidableEq

/-- Rendering of a numeric cell by Python `str()`. Integral values render as
`N.0` exactly as CPython renders integral floats; non-integral values use a
digits-only placeholder rendering (`num/den`) — no branch test of the program
can distinguish it from the CPython decimal rendering, since every test looks
for alphabetic substrings or compares against alphabetic labels. -/
def ratRender (q : ℚ) : List Char :=
  (if q.num < 0 then ['-'] else []) ++
    (if q.den = 1 then natDigits q.num.natAbs ++ ['.', '0']
     else natDigits q.num.natAbs ++ '/' :: natDigits q.den)

/-- Python `str(cell_value)`: `NaN` renders as `"nan"`. -/
def pyStr : Cell → String
  | .empty => "nan"
  | .num q => ⟨ratRender q⟩
  | .str s => s

/-- Exponent suffix digits for float literals (must be all digits, non-empty). -/
def expDigits (cs : List Char) : Option Nat :=
  if !cs.isEmpty && cs.all Char.isDigit then some (digitsVal cs) else none

/-- Signed exponent of a float literal. -/
def expVal : List Char → Option Int
  | '+' :: r => (expDigits r).map Int.ofNat
  | '-' :: r => (expDigits r).map (fun n => -(n : Int))
  | r => (expDigits r).map Int.ofNat

/-- Assemble `ip . fp × 10^e` as a rational. -/
def mantissaVal (ip fp : List Char) (e : Int) : ℚ :=
  let base : ℚ := ((digitsVal ip * 10 ^ fp.length + digitsVal fp : ℕ) : ℚ) / ((10 ^ fp.length : ℕ) : ℚ)
  if 0 ≤ e then base * ((10 ^ e.toNat : ℕ) : ℚ) else base / ((10 ^ (-e).toNat : ℕ) : ℚ)

/-- Unsigned part of Python `float(str)` parsing. -/
def pyFloatMag (cs : List Char) : Option ℚ :=
  let ip := cs.takeWhile Char.isDigit
  let r1 := cs.dropWhile Char.isDigit
  match r1 with
  | [] => if ip.isEmpty then none else some (mantissaVal ip [] 0)
  | '.' :: r2 =>
    let fp := r2.takeWhile Char.isDigit
    let r3 := r2.dropWhile Char.isDigit
    if ip.isEmpty && fp.isEmpty then none
    else
      match r3 with
      | [] => some (mantissaVal ip fp 0)
      | c :: r4 =>
        if c = 'e' ∨ c = 'E' then (expVal r4).map (mantissaVal ip fp) else none
  | c :: r2 =>
    if (c = 'e' ∨ c = 'E') ∧ !ip.isEmpty then (expVal r2).map (mantissaVal ip []) else none

/-- Python `float(s)` on a string: strip, optional sign, finite decimal /
scientific literal (the `inf` / `nan` words are outside the model). -/
def pyFloatQ (s : String) : Option ℚ :=
  match (pyStrip s).data with
  | '+' :: rest => pyFloatMag rest
  | '-' :: rest => (pyFloatMag rest).map (fun q => -q)
  | cs => pyFloatMag cs

/-- Embedding of `_is_numeric_cell`: blank is not numeric, numbers are, text is numeric
when `float(str(val).strip())` succeeds. -/
def isNumericCell : Cell → Bool
  | .empty => false
  | .num _ => true
  | .str s => (pyFloatQ (pyStrip s)).isSome

/-- Metric-cell coercion used when building a record row:
`float(val) if pd.notna(val) else 0.0`, with `ValueError`/`TypeError`
falling back to `0.0`. -/
def metricVal : Cell → ℚ
  | .empty => 0
  | .num q => q
  | .str s => (pyFloatQ (pyStrip s)).getD 0

/-! ### Python dict as an association list (insertion order, overwrite on repeat) -/

/-- Python `d[k] = v`: overwrite in place if the key exists, else append. -/
def dictInsert {κ α : Type} [DecidableEq κ] (d : List (κ × α)) (k : κ) (v : α) : List (κ × α) :=
  if d.any (fun p => p.1 = k) then
    d.map (fun p => if p.1 = k then (k, v) else p)
  else
    d ++ [(k, v)]

/-! ### Name normalisation (`DRUG_ALIASES`, `normalize_drug_name`) -/

/-- The alias table, in source order; a `none` canonical value is the
"exclude this row" sentinel. -/
def DRUG_ALIASES : List (String × Option String) :=
  [ ("Other. (somatrogon (NGENLA) 60mg/1.2mL PFP 1\x27s)", some "Ngenla (Pfizer)"),
    ("Other. (somatrogon (NGENLA)", some "Ngenla (Pfizer)"),
    ("Other, please specify", none),
    ("Other", some "Ngenla (Pfizer)") ]

/-- Embedding of `normalize_drug_name`: first alias whose pattern is contained in the
trimmed label, or whose first 20 characters the label starts with, wins;
otherwise the trimmed label passes through (`none` when it is empty). -/
def normalizeDrugName (name : String) : Option String :=
  let s := pyStrip name
  match DRUG_ALIASES.findSome?
      (fun p => if strContains s p.1 || pyStartsWith s (pyTake p.1 20) then some p.2 else none) with
  | some c => c
  | none => if s = "" then none else some s

/-- Embedding of `_looks_like_indication_section`: rollup rows (total patients / unique)
and the three domain section headers. -/
def looksLikeIndicationSection (typeStr : String) : Bool :=
  let s := pyLower (pyStrip typeStr)
  if s = "" then false
  else if strContains s "total patients" || strContains s "unique" then true
  else if strContains s "growth hormone" && (strContains s "def" || strContains s "ghd") then true
  else if strContains s "gestational" || strContains s "sga" then true
  else if strContains s "syndrome" && strContains s "turner" then true
  else false

/-! ### The grid (`pd.read_excel(..., header=None)` result) -/

/-- A raw sheet: a list of rows of cells. pandas pads ragged rows with `NaN`,
which cell access reproduces via `Cell.empty` defaults. -/
structure Grid where
  cells : List (List Cell)
deriving DecidableEq

/-- Number of grid rows (`len(df_raw)`). -/
def nrows (g : Grid) : Nat :=
  g.cells.length

/-- Number of grid columns (`len(df_raw.columns)` = longest row). -/
def ncols (g : Grid) : Nat :=
  g.cells.foldr (fun r m => max r.length m) 0

/-- Row `i` of the grid. -/
def rowAt (g : Grid) (i : Nat) : List Cell :=
  g.cells.getD i []

/-- Cell `(i, j)`, `NaN`-padded. -/
def cellAt (g : Grid) (i j : Nat) : Cell :=
  (rowAt g i).getD j Cell.empty

/-! ### Table locator and header row -/

/-- The header keywords scanned for. -/
def headerKeywords : List String :=
  ["type", "drug", "product", "treatment"]

/-- Scan one row (first `min 10 ncols` columns) for a header keyword cell of
length < 50; return the first matching column. -/
def findHeaderInRow (row : List Cell) (nc : Nat) : Option Nat :=
  (List.range (min 10 nc)).find? (fun j =>
    let c := pyLower (pyStrip (pyStr (row.getD j Cell.empty)))
    headerKeywords.any (fun kw => strContains c kw) && strLen c < 50)

/-- Locate the header row / key column: first match row-major over the first
`min 25 nrows` rows. -/
def findHeader (g : Grid) : Option (Nat × Nat) :=
  (List.range (min 25 (nrows g))).findSome? (fun i =>
    (findHeaderInRow (rowAt g i) (ncols g)).map (fun j => (i, j)))

/-- Header labels of row `r`: `str(h).strip()` per cell, `""` for blanks
(length = `ncols`). -/
def headersAt (g : Grid) (r : Nat) : List String :=
  (List.range (ncols g)).map (fun j =>
    match cellAt g r j with
    | Cell.empty => ""
    | c => pyStrip (pyStr c))

/-! ### Row classification -/

/-- The fixed skip-set for key-cell labels. -/
def skipTypeValues : List String :=
  ["scope", "time period", "type", "drug", "questionnaire", ""]

/-- The numeric-bearing test of `parse_details_sheet` (lines 248-255): the
cell right of the key column, and — when that is not numeric — a scan of the
cells at offsets 1..5 right of the key column, clipped to the grid width. -/
def hasNumericTest (row : List Cell) (tIdx nc : Nat) : Bool :=
  let firstMetric := if tIdx + 1 < nc then row.getD (tIdx + 1) Cell.empty else Cell.empty
  let hn := isNumericCell firstMetric
  if !hn && tIdx + 1 < nc then
    (List.range' (tIdx + 1) (min (tIdx + 6) nc - (tIdx + 1))).any
      (fun j => isNumericCell (row.getD j Cell.empty))
  else
    hn

/-- One extracted record: the `(Indication, Type)` key with its metric dict. -/
abbrev Rec := (String × String) × List (String × ℚ)

/-- Build the metric dict of a data row: columns right of the key column with
a non-empty header label, coerced to float with `0.0` fallback. -/
def buildMetrics (headers : List String) (tIdx nc : Nat) (row : List Cell) : List (String × ℚ) :=
  (List.range' (tIdx + 1) (headers.length - (tIdx + 1))).foldl
    (fun m j =>
      if nc ≤ j then m
      else
        let h := headers.getD j ""
        if h = "" then m
        else dictInsert m h (metricVal (row.getD j Cell.empty)))
    []

/-- State of the primary classification pass: the active section and the
records accumulated so far. -/
structure PState where
  indication : Option String
  recs : List Rec
deriving DecidableEq

/-- One step of the primary classification pass of `parse_details_sheet`
(lines 239-284): skip rows, the numeric-bearing test, the blank-form
acceptance rule, exclusion, record emission, and section tracking.
Python truthiness of `current_indication` is modelled by `isSome`: the
section is only ever set to a non-empty trimmed string, so the falsy cases
(`None`, `NaN`, the empty string) coincide with `none`; likewise
`canonical_type if canonical_type else type_str` is `Option.getD` because
`normalize_drug_name` never returns the empty string. -/
def detailsStep (headers : List String) (tIdx nc : Nat) (st : PState) (row : List Cell) : PState :=
  let typeVal := row.getD tIdx Cell.empty
  if typeVal = Cell.empty then st
  else
    let typeStr := pyStrip (pyStr typeVal)
    if typeStr = "" then st
    else if skipTypeValues.contains (pyLower typeStr)
        || strContains (pyLower typeStr) "time period"
        || strContains (pyLower typeStr) "scope" then st
    else
      let hasNum := hasNumericTest row tIdx nc
      let isDataRow :=
        hasNum ||
          (st.indication.isSome && typeStr ≠ "Total patients (UNIQUE)"
            && typeStr ≠ "Other, please specify"
            && !looksLikeIndicationSection typeStr)
      if isDataRow then
        match st.indication with
        | none => st
        | some ind =>
          let canonical := normalizeDrugName typeStr
          if canonical = none ∧ typeStr = "Other, please specify" then st
          else
            let typ := canonical.getD typeStr
            { st with recs := st.recs ++ [((ind, typ), buildMetrics headers tIdx nc row)] }
      else
        if looksLikeIndicationSection typeStr
            && !strContains (pyLower typeStr) "total patients" then
          { st with indication := some typeStr }
        else st

/-- State of the fallback pass: the (string) section label and records. -/
structure FbState where
  indication : String
  recs : List Rec
deriving DecidableEq

/-- One step of the fallback pass of `parse_details_sheet` (lines 292-324):
key column fixed at 0, any numeric cell to the right accepts the row, and a
non-numeric row that is not a "patients"/"Total" label replaces the section. -/
def fbStep (headersFb : List String) (nc : Nat) (st : FbState) (row : List Cell) : FbState :=
  let typeVal := row.getD 0 Cell.empty
  if typeVal = Cell.empty then st
  else
    let typeStr := pyStrip (pyStr typeVal)
    if typeStr = "" || skipTypeValues.contains (pyLower typeStr) then st
    else
      let hasAnyNum := (List.range' 1 (nc - 1)).any (fun j => isNumericCell (row.getD j Cell.empty))
      if !hasAnyNum then
        if !isNumericCell typeVal && !strContains (pyLower typeStr) "patients"
            && !pyStartsWith typeStr "Total" then
          { st with indication := typeStr }
        else st
      else
        let canonical := normalizeDrugName typeStr
        if canonical = none ∧ typeStr = "Other, please specify" then st
        else
          let typ := canonical.getD typeStr
          { st with recs := st.recs ++ [((st.indication, typ), buildMetrics headersFb 0 nc row)] }

/-- Records of the primary pass (empty when no header keyword is found). -/
def primaryRecords (g : Grid) : List Rec :=
  match findHeader g with
  | none => []
  | some (hr, tIdx) =>
    ((g.cells.drop (hr + 1)).foldl (detailsStep (headersAt g hr) tIdx (ncols g))
      { indication := none, recs := [] }).recs

/-- Records of the fallback pass: header row fixed at 0, key column fixed at
0, section label starting as the `"Details"` placeholder. -/
def fallbackRecords (g : Grid) : List Rec :=
  ((g.cells.drop 1).foldl (fbStep (headersAt g 0) (ncols g))
    { indication := "Details", recs := [] }).recs

/-! ### Assembling the result table -/

/-- Key order used by `sort_index()` / `sorted()`: Python tuple comparison,
lexicographic by code points. -/
def keyLE (a b : String × String) : Bool :=
  !(strLtB b.1 a.1 || (b.1 = a.1 && strLtB b.2 a.2))

/-- Stable sort of records by key (pandas `sort_index()` is stable, and the
stable sort by a total key order is unique). -/
def sortRecs (rs : List Rec) : List Rec :=
  List.insertionSort (fun a b => keyLE a.1 b.1 = true) rs

/-- Column labels of `pd.DataFrame(rows)`: union of the metric keys of the row dicts in first-seen order. -/
def colsOf (rows : List Rec) : List String :=
  rows.foldl (fun acc r => r.2.foldl (fun a p => if a.contains p.1 then a else a ++ [p.1]) acc) []

/-- The extracted table: index names, rows (key × metric dict), columns. -/
structure DetailsDF where
  indexNames : List String
  rows : List Rec
  cols : List String
deriving DecidableEq

/-- Model of `pd.DataFrame()` — the empty frame (unnamed index). -/
def emptyDF : DetailsDF :=
  { indexNames := [], rows := [], cols := [] }

/-- Model of `pd.DataFrame(rows).set_index(["Indication","Type"]).sort_index()`:
columns are fixed before sorting, rows are stably sorted by key. -/
def mkDetailsDF (rows : List Rec) : DetailsDF :=
  { indexNames := ["Indication", "Type"], rows := sortRecs rows, cols := colsOf rows }

/-- Model of `DataFrame.empty` (either axis has length 0). -/
def dfEmpty (df : DetailsDF) : Bool :=
  df.rows.isEmpty || df.cols.isEmpty

/-- The records `parse_details_sheet` accumulates into `rows` before building
the frame: the primary pass, else — on a grid of at least 2×2 — the fallback
pass. -/
def selectedRecords (g : Grid) : List Rec :=
  if nrows g < 2 || ncols g = 0 then []
  else
    match findHeader g with
    | none => []
    | some _ =>
      let prim := primaryRecords g
      if prim.isEmpty then
        (if 2 ≤ nrows g && 2 ≤ ncols g then fallbackRecords g else [])
      else prim

/-- Embedding of `parse_details_sheet` on a loaded grid: empty frame for degenerate grids,
for an unlocated header, or when both passes yield nothing. -/
def parseDetailsSheet (g : Grid) : DetailsDF :=
  let rows := selectedRecords g
  if rows.isEmpty then emptyDF else mkDetailsDF rows

/-! ### Reconciler (`compare_details`) -/

/-- A record key. -/
abbrev Key := String × String

/-- Stable sort of keys in Python tuple order. -/
def sortKeys (ks : List Key) : List Key :=
  List.insertionSort (fun a b => keyLE a b = true) ks

/-- Model of `sorted(set(a) | set(b))`. -/
def sortedUnion (a b : List Key) : List Key :=
  sortKeys ((a ++ b).dedup)

/-- The explicit old-label → new-label metric correspondences. -/
def METRIC_KEYS : List (String × String) :=
  [ ("Total patients treated in the last 12 months",
     "Total patients treated in the last 6 months"),
    ("Newly diagnosed patients received drug treatments in the last 12 months",
     "Newly diagnosed patients received drug treatments in the last 6 months"),
    ("Follow up patients and received drug treatments in the last 12 months",
     "Follow up patients and received drug treatments in the last 6 months") ]

/-- Column pairing of `compare_details`: explicit table first, else the first
(up to) four columns of each side positionally. All columns of a record
table hold numeric values in this model, so `is_numeric_dtype` always holds. -/
def colPairs (dfOld dfNew : DetailsDF) : List (String × String) :=
  let explicitPairs := METRIC_KEYS.filter
    (fun p => dfOld.cols.contains p.1 && dfNew.cols.contains p.2)
  if explicitPairs.isEmpty then (dfOld.cols.take 4).zip (dfNew.cols.take 4)
  else explicitPairs

/-- The display label of a metric pair: `str(old_col)[:35]` with the
period-suffix abbreviations. -/
def truncMetric (oc : String) : String :=
  pyReplace (pyReplace (pyTake oc 35) "12 months" "12mo") "6 months" "6mo"

/-- Model of `df.at[key, col]`: the cell of the unique row (`none` = `NaN`), or an
exception when the key is ambiguous (duplicate index entries make
`float(df.at[...])` raise `TypeError`). -/
def atCellE (df : DetailsDF) (k : Key) (c : String) : Except Unit (Option ℚ) :=
  match df.rows.filter (fun r => r.1 == k) with
  | [] => Except.ok none
  | [r] => Except.ok (r.2.lookup c)
  | _ => Except.error ()

/-- The `(old_val, new_val)` pair of the try/except block of
`compare_details`: guarded lookups with `0.0` for a missing side, `NaN → 0.0`,
and both values zeroed when either lookup raises. -/
def cdVals (dfOld dfNew : DetailsDF) (k : Key) (p : String × String) : ℚ × ℚ :=
  let oE : Except Unit ℚ :=
    if (dfOld.rows.map Prod.fst).contains k && dfOld.cols.contains p.1 then
      (atCellE dfOld k p.1).map (fun o => o.getD 0)
    else Except.ok 0
  let nE : Except Unit ℚ :=
    if (dfNew.rows.map Prod.fst).contains k && dfNew.cols.contains p.2 then
      (atCellE dfNew k p.2).map (fun o => o.getD 0)
    else Except.ok 0
  match oE, nE with
  | Except.ok o, Except.ok n => (o, n)
  | _, _ => (0, 0)

/-- Add the `_old` / `_new` / `_change` fields of one matched metric pair to
a comparison row (Python dict semantics: same-named fields overwrite). -/
def cdInsert (dfOld dfNew : DetailsDF) (k : Key) (rd : List (String × ℚ))
    (p : String × String) : List (String × ℚ) :=
  let m := truncMetric p.1
  let ov := (cdVals dfOld dfNew k p).1
  let nv := (cdVals dfOld dfNew k p).2
  dictInsert (dictInsert (dictInsert rd (m ++ "_old") ov) (m ++ "_new") nv) (m ++ "_change") (nv - ov)

/-- Embedding of `compare_details`: one output row per key of the sorted union, with the
value triples of the matched metric pairs as fields. -/
def compareDetails (dfOld dfNew : DetailsDF) : List (Key × List (String × ℚ)) :=
  if dfEmpty dfOld && dfEmpty dfNew then []
  else
    let pairs := colPairs dfOld dfNew
    (sortedUnion (dfOld.rows.map Prod.fst) (dfNew.rows.map Prod.fst)).map
      (fun k => (k, pairs.foldl (cdInsert dfOld dfNew k) []))

/-- The value `compare_details` reads for a key/column on one side when that
keys on that side are unique: the stored value, `0.0` when the key or column is
missing or the cell is `NaN`. -/
def presentVal (df : DetailsDF) (k : Key) (c : String) : ℚ :=
  if (df.rows.map Prod.fst).contains k && df.cols.contains c then
    match df.rows.find? (fun r => r.1 == k) with
    | none => 0
    | some r => (r.2.lookup c).getD 0
  else 0

/-- The three field names contributed by one matched metric pair. -/
def fieldTriple (p : String × String) : List String :=
  [truncMetric p.1 ++ "_old", truncMetric p.1 ++ "_new", truncMetric p.1 ++ "_change"]

/-- All field names contributed by a list of matched metric pairs. -/
def fieldNames : List (String × String) → List String
  | [] => []
  | p :: ps => fieldTriple p ++ fieldNames ps

/-! ### Coordinate index (`get_details_sheet_row_col_map`) -/

/-- The coordinate index of a sheet: `(Indication, Type) → row`,
`metric header → column`. -/
structure SheetCtx where
  rowMap : List (Key × Nat)
  colMap : List (String × Nat)
deriving DecidableEq

/-- State of the coordinate-index scan. -/
structure RCState where
  indication : Option String
  rowMap : List (Key × Nat)
deriving DecidableEq

/-- One step of the coordinate-index scan (same classification logic as
`detailsStep`, recording the physical row index instead of values). -/
def rcStep (g : Grid) (tIdx nc : Nat) (st : RCState) (i : Nat) : RCState :=
  let row := rowAt g i
  let typeVal := row.getD tIdx Cell.empty
  if typeVal = Cell.empty then st
  else
    let typeStr := pyStrip (pyStr typeVal)
    if typeStr = "" || skipTypeValues.contains (pyLower typeStr)
        || strContains (pyLower typeStr) "time period"
        || strContains (pyLower typeStr) "scope" then st
    else
      let hasNum := hasNumericTest row tIdx nc
      let isDataRow :=
        hasNum ||
          (st.indication.isSome && typeStr ≠ "Total patients (UNIQUE)"
            && typeStr ≠ "Other, please specify"
            && !looksLikeIndicationSection typeStr)
      if isDataRow then
        match st.indication with
        | none => st
        | some ind =>
          let canonical := normalizeDrugName typeStr
          if canonical = none ∧ typeStr = "Other, please specify" then st
          else
            let typeKey := canonical.getD typeStr
            { st with rowMap := dictInsert st.rowMap (ind, typeKey) i }
      else
        if looksLikeIndicationSection typeStr
            && !strContains (pyLower typeStr) "total patients" then
          { st with indication := some typeStr }
        else st

/-- Embedding of `get_details_sheet_row_col_map` on a loaded grid. -/
def rowColMap (g : Grid) : SheetCtx :=
  if nrows g < 2 || ncols g = 0 then { rowMap := [], colMap := [] }
  else
    match findHeader g with
    | none => { rowMap := [], colMap := [] }
    | some (hr, tIdx) =>
      let headers := headersAt g hr
      let colMap := (List.range' (tIdx + 1) (headers.length - (tIdx + 1))).foldl
        (fun cm j =>
          let h := headers.getD j ""
          if h = "" then cm else dictInsert cm h j)
        []
      let rowMap := ((List.range' (hr + 1) (nrows g - (hr + 1))).foldl
        (rcStep g tIdx (ncols g)) { indication := none, rowMap := [] }).rowMap
      { rowMap := rowMap, colMap := colMap }

/-! ### Write-back patcher (`fill_details_sheet_to_excel`) -/

/-- Row resolution: exact `(Indication, Type)` dict hit, else the first map
entry with the same trimmed type and a substring relation (either direction)
between the trimmed section labels. -/
def resolveRow (rowMap : List (Key × Nat)) (key : Key) : Option Nat :=
  match rowMap.lookup key with
  | some ri => some ri
  | none =>
    rowMap.findSome? (fun e =>
      if pyStrip e.1.2 = pyStrip key.2 then
        (if strContains (pyStrip key.1) (pyStrip e.1.1)
            || strContains (pyStrip e.1.1) (pyStrip key.1) then some e.2 else none)
      else none)

/-- Model of the dict comprehension building `col_map_normalized` from the
stripped column labels. -/
def colMapNorm (colMap : List (String × Nat)) : List (String × Nat) :=
  colMap.foldl (fun d e => dictInsert d (pyStrip e.1) e.2) []

/-- Model of the dict comprehension building `col_map_fuzzy` from the
whitespace-normalised column labels. -/
def colMapFuzzy (colMap : List (String × Nat)) : List (String × (String × Nat)) :=
  colMap.foldl (fun d e => dictInsert d (pyNormSpaces e.1) (e.1, e.2)) []

/-- Column resolution: exact stripped match first, else whitespace-normalised
fuzzy match. -/
def resolveCol (colMap : List (String × Nat)) (c : String) : Option Nat :=
  match (colMapNorm colMap).lookup (pyStrip c) with
  | some i => some i
  | none => ((colMapFuzzy colMap).lookup (pyNormSpaces c)).map Prod.snd

/-- The number of cells the write loop of `fill_details_sheet_to_excel`
writes: one per table row with a resolvable key and per resolvable column
(values, including coercion failures, are always written once both resolve). -/
def writtenOf (ctx : SheetCtx) (df : DetailsDF) : Nat :=
  df.rows.foldl
    (fun acc r =>
      match resolveRow ctx.rowMap r.1 with
      | none => acc
      | some _ =>
        df.cols.foldl (fun a c => if (resolveCol ctx.colMap c).isSome then a + 1 else a) acc)
    0

/-- Errors of the write-back path. `noneWritten` carries the diagnostic
payload of the "No cells written" message: the two key counts, the matched /
total / sheet column counts, and the three samples. -/
inductive WriteErr where
  | badInput : WriteErr
  | noLayout : WriteErr
  | noneWritten : Nat → Nat → Nat → Nat → Nat → List Key → List Key → List String → WriteErr
  | ioFailure : WriteErr
deriving DecidableEq

/-- The diagnostic payload assembled at lines 535-546 of the source. -/
def mkDiag (ctx : SheetCtx) (df : DetailsDF) : WriteErr :=
  let keysInSheet := (ctx.rowMap.map Prod.fst).dedup
  let keysInDf := (df.rows.map Prod.fst).dedup
  let colMapN := colMapNorm ctx.colMap
  let colsMatched := (df.cols.map pyStrip).filter (fun c => (colMapN.lookup c).isSome)
  WriteErr.noneWritten keysInDf.length keysInSheet.length colsMatched.length
    df.cols.length colMapN.length (keysInSheet.take 3) (keysInDf.take 3)
    ((colMapN.map Prod.fst).take 5)

/-! ### File-system model for the persistence step -/

/-- The temp file slot: missing, created empty by `mkstemp`, or holding
saved workbook content. -/
inductive TempFile (β : Type) where
  | absent : TempFile β
  | created : TempFile β
  | written : β → TempFile β
deriving DecidableEq

/-- The file system visible to one write-back call: the content of the target file and the temp file beside it. -/
structure FSState (β : Type) where
  target : β
  temp : TempFile β
deriving DecidableEq

/-- Where (if anywhere) the save sequence fails: at `os.close`, at
`wb.save(tmp_path)`, or at `os.replace` (which, being the most atomic
primitive available, fails without partial effect). -/
inductive FaultPoint where
  | noFault : FaultPoint
  | closeFault : FaultPoint
  | saveFault : FaultPoint
  | replaceFault : FaultPoint
deriving DecidableEq

/-- The save sequence of lines 548-563: `mkstemp` → `close` → `wb.save(tmp)`
→ `os.replace(tmp, target)`, with the `except` block unlinking the temp file
and re-raising. Returns the outcome, the final state, and the intermediate
state trace (the last trace entry is the final state). -/
def atomicSave {β : Type} (fs : FSState β) (content : β) (fault : FaultPoint) :
    Except Unit Unit × FSState β × List (FSState β) :=
  let s1 : FSState β := { fs with temp := TempFile.created }
  match fault with
  | FaultPoint.closeFault =>
    let s2 : FSState β := { s1 with temp := TempFile.absent }
    (Except.error (), s2, [s1, s2])
  | FaultPoint.saveFault =>
    let s2 : FSState β := { s1 with temp := TempFile.absent }
    (Except.error (), s2, [s1, s2])
  | FaultPoint.replaceFault =>
    let s2 : FSState β := { s1 with temp := TempFile.written content }
    let s3 : FSState β := { s2 with temp := TempFile.absent }
    (Except.error (), s3, [s1, s2, s3])
  | FaultPoint.noFault =>
    let s2 : FSState β := { s1 with temp := TempFile.written content }
    let s3 : FSState β := { target := content, temp := TempFile.absent }
    (Except.ok (), s3, [s1, s2, s3])

/-- Embedding of `fill_details_sheet_to_excel` over an abstract file content type `β`:
input validation, coordinate-index build (`readGrid` decodes the target
file bytes to its grid), the write loop (summarised by its cell count; the
in-memory workbook mutation is `applyW`), the zero-written diagnostic error,
and the atomic save. -/
def fillDetailsFile {β : Type} (fs : FSState β) (readGrid : β → Grid)
    (applyW : β → DetailsDF → β) (df : DetailsDF) (fault : FaultPoint) :
    Except WriteErr Nat × FSState β :=
  if dfEmpty df || df.indexNames.isEmpty || df.indexNames ≠ ["Indication", "Type"] then
    (Except.error WriteErr.badInput, fs)
  else
    let ctx := rowColMap (readGrid fs.target)
    if ctx.rowMap.isEmpty || ctx.colMap.isEmpty then
      (Except.error WriteErr.noLayout, fs)
    else
      let w := writtenOf ctx df
      if w = 0 then (Except.error (mkDiag ctx df), fs)
      else
        match atomicSave fs (applyW fs.target df) fault with
        | (Except.ok _, fs2, _) => (Except.ok w, fs2)
        | (Except.error _, fs2, _) => (Except.error WriteErr.ioFailure, fs2)

/-! ### The claim C5 reading of the numeric-bearing test, from the wording of the spec -/

/-- Formalisation of the wording of the claim (spec 4.4 step 3): the metric cell
immediately right of the key column is numeric-coercible, or — when that cell
is blank — at least one of the five further cells to its right (offsets 2..6)
is numeric-coercible. Stated from the spec, to be compared with
`hasNumericTest`, which is translated from the source. -/
def specNumericBearing (row : List Cell) (tIdx nc : Nat) : Bool :=
  let firstMetric := if tIdx + 1 < nc then row.getD (tIdx + 1) Cell.empty else Cell.empty
  isNumericCell firstMetric ||
    (firstMetric = Cell.empty &&
      (List.range' (tIdx + 2) 5).any
        (fun j => isNumericCell (if j < nc then row.getD j Cell.empty else Cell.empty)))

/-! ### Concrete inputs used by the individual claims -/

/-- The claim C1 grid: header row at index 2, key column 0, generic section
banners `Category X` / `Category Y`. -/
def gridC1 : Grid := ⟨[
  [Cell.empty, Cell.empty, Cell.empty, Cell.empty],
  [Cell.empty, Cell.empty, Cell.empty, Cell.empty],
  [Cell.str "Type", Cell.str "Metric1", Cell.str "Metric2", Cell.str "Metric3"],
  [Cell.str "Category X", Cell.str "", Cell.str "", Cell.str ""],
  [Cell.str "Widget A", Cell.num 10, Cell.num 2, Cell.num 8],
  [Cell.str "", Cell.str "", Cell.str "", Cell.str ""],
  [Cell.str "Category Y", Cell.str "", Cell.str "", Cell.str ""],
  [Cell.str "Widget A", Cell.num 0, Cell.num 0, Cell.num 0]]⟩

/-- What extraction actually returns on `gridC1`: the fallback pass fires
(the generic banners match no section heuristic, so the primary pass drops
every row), and the fallback header row 0 is blank, so the records carry
no metric columns at all. -/
def tableC1 : DetailsDF :=
  { indexNames := ["Indication", "Type"],
    rows := [(("Category X", "Widget A"), []), (("Category Y", "Widget A"), [])],
    cols := [] }

/-- The claim C1 grid with the generic banners replaced by labels the section
heuristic recognises. -/
def gridC1A : Grid := ⟨[
  [Cell.empty, Cell.empty, Cell.empty, Cell.empty],
  [Cell.empty, Cell.empty, Cell.empty, Cell.empty],
  [Cell.str "Type", Cell.str "Metric1", Cell.str "Metric2", Cell.str "Metric3"],
  [Cell.str "Pediatric growth hormone deficiency (pGHD)", Cell.str "", Cell.str "", Cell.str ""],
  [Cell.str "Widget A", Cell.num 10, Cell.num 2, Cell.num 8],
  [Cell.str "", Cell.str "", Cell.str "", Cell.str ""],
  [Cell.str "Turner syndrome", Cell.str "", Cell.str "", Cell.str ""],
  [Cell.str "Widget A", Cell.num 0, Cell.num 0, Cell.num 0]]⟩

/-- The two records claim C1 expects, under recognised section labels
(sorted key order). -/
def tableC1A : DetailsDF :=
  { indexNames := ["Indication", "Type"],
    rows := [
      (("Pediatric growth hormone deficiency (pGHD)", "Widget A"),
        [("Metric1", 10), ("Metric2", 2), ("Metric3", 8)]),
      (("Turner syndrome", "Widget A"),
        [("Metric1", 0), ("Metric2", 0), ("Metric3", 0)])],
    cols := ["Metric1", "Metric2", "Metric3"] }

/-- The claim C2 grid: a numeric-bearing row whose label contains the exclude
alias `Other, please specify` without being exactly equal to it. -/
def gridC2 : Grid := ⟨[
  [Cell.str "Type", Cell.str "M1"],
  [Cell.str "Pediatric growth hormone deficiency", Cell.str ""],
  [Cell.str "Other, please specify (ngenla)", Cell.num 5]]⟩

/-- The record `gridC2` extraction emits despite the exclude-alias match. -/
def recC2 : Rec :=
  (("Pediatric growth hormone deficiency", "Other, please specify (ngenla)"), [("M1", 5)])

/-- The claim C3 grid: two data rows with the same `(Section, Type)` key. -/
def gridC3 : Grid := ⟨[
  [Cell.str "Type", Cell.str "M1"],
  [Cell.str "Turner syndrome", Cell.str ""],
  [Cell.str "Widget A", Cell.num 1],
  [Cell.str "Widget A", Cell.num 2]]⟩

/-- The claim C5 row: the first metric cell is non-blank, non-numeric text,
and a numeric value sits two cells right of the key column. -/
def rowC5 : List Cell := [Cell.str "X", Cell.str "abc", Cell.num 5]

/-- The claim C6 grid: a numeric-bearing `Total patients (UNIQUE)` row below
an active section. -/
def gridC6 : Grid := ⟨[
  [Cell.str "Type", Cell.str "M1"],
  [Cell.str "Turner syndrome", Cell.str ""],
  [Cell.str "Total patients (UNIQUE)", Cell.num 42]]⟩

/-- A classifier state with an active section, for the claim C6 witness. -/
def stC6 : PState := { indication := some "S", recs := [] }

/-- A non-numeric rollup row, for the claim C6 witness. -/
def rowC6 : List Cell := [Cell.str "Total patients (UNIQUE)", Cell.str "x"]

/-- The claim C7 grid without any header keyword: the primary pass yields
zero records, yet extraction returns empty without running the fallback. -/
def gridC7a : Grid := ⟨[
  [Cell.str "Alpha", Cell.str "One"],
  [Cell.str "Beta", Cell.num 2]]⟩

/-- The claim C7 grid on which the fallback pass emits a record whose
section label is not the `"Details"` placeholder. -/
def gridC7b : Grid := ⟨[
  [Cell.str "Type", Cell.str "M1"],
  [Cell.str "Section Z", Cell.str ""],
  [Cell.str "Widget", Cell.num 5]]⟩

/-- First old-side column of the claim C4 counterexample (36 characters;
the first 35 coincide with `c4colOld2`). -/
def c4colOld1 : String := "AAAAAAAAAAAAAAAAAAAAAAAAAAAAAAAAAAA1"

/-- Second old-side column of the claim C4 counterexample. -/
def c4colOld2 : String := "AAAAAAAAAAAAAAAAAAAAAAAAAAAAAAAAAAA2"

/-- Old-side table of the claim C4 counterexample. -/
def dfOldC4 : DetailsDF :=
  { indexNames := ["Indication", "Type"],
    rows := [(("S", "T"), [(c4colOld1, 1), (c4colOld2, 2)])],
    cols := [c4colOld1, c4colOld2] }

/-- New-side table of the claim C4 counterexample. -/
def dfNewC4 : DetailsDF :=
  { indexNames := ["Indication", "Type"],
    rows := [(("S", "T"), [("P", 10), ("Q", 20)])],
    cols := ["P", "Q"] }

/-- Old-side table of the claim C4 witness (explicit metric-pair path). -/
def dfOldC4W : DetailsDF :=
  { indexNames := ["Indication", "Type"],
    rows := [(("C", "A"), [("Total patients treated in the last 12 months", 100)])],
    cols := ["Total patients treated in the last 12 months"] }

/-- New-side table of the claim C4 witness. -/
def dfNewC4W : DetailsDF :=
  { indexNames := ["Indication", "Type"],
    rows := [(("C", "B"), [("Total patients treated in the last 6 months", 60)])],
    cols := ["Total patients treated in the last 6 months"] }

/-- Target-sheet grid of the claim C8 witness. -/
def gridC8 : Grid := ⟨[
  [Cell.str "Type", Cell.str "M1"],
  [Cell.str "Turner syndrome", Cell.str ""],
  [Cell.str "Widget A", Cell.num 5]]⟩

/-- Input table of the claim C8 witness. -/
def dfC8 : DetailsDF :=
  { indexNames := ["Indication", "Type"],
    rows := [(("Turner syndrome", "Widget A"), [("M1", 7)])],
    cols := ["M1"] }

/-- Initial file system of the claim C8 witness. -/
def fsC8 : FSState Grid := { target := gridC8, temp := TempFile.absent }

/-- Target-sheet grid of the claim C9 witness. -/
def gridC9 : Grid := ⟨[
  [Cell.str "Type", Cell.str "M1"],
  [Cell.str "Turner syndrome", Cell.str ""],
  [Cell.str "Widget A", Cell.num 5]]⟩

/-- Input table of the claim C9 witness. -/
def dfC9 : DetailsDF :=
  { indexNames := ["Indication", "Type"],
    rows := [(("Turner syndrome", "Widget A"), [("M1", 7)])],
    cols := ["M1"] }

/-- Initial file system of the claim C9 witness. -/
def fsC9 : FSState Grid := { target := gridC9, temp := TempFile.absent }

/-- Initial file system of the claim C10 witness. -/
def fsC10 : FSState Nat := { target := 0, temp := TempFile.absent }

/-! ### Helper lemmas: strings and dicts -/

/-- Any list is a prefix of itself under `isPrefixOf`. -/
theorem isPrefixOf_self {α : Type} [BEq α] [LawfulBEq α] : (l : List α) → l.isPrefixOf l = true
  | [] => rfl
  | a :: as => by simp [List.isPrefixOf, isPrefixOf_self as]

/-- Lemma: `listHas` finds the needle when it equals the haystack. -/
theorem listHas_self (l : List Char) : listHas l l = true := by
  unfold listHas
  simp [isPrefixOf_self]

/-- Every string contains itself. -/
theorem strContains_self (s : String) : strContains s s = true :=
  listHas_self s.data

/-- The char-list body of `pyStrip`. -/
theorem pyStrip_data (s : String) :
    (pyStrip s).data
      = (s.data.dropWhile Char.isWhitespace).rdropWhile Char.isWhitespace := by
  simp [pyStrip, List.rdropWhile]

/-- Double stripping at the list level. -/
theorem stripData_idem (l : List Char) :
    List.rdropWhile Char.isWhitespace
        (List.dropWhile Char.isWhitespace
          ((l.dropWhile Char.isWhitespace).rdropWhile Char.isWhitespace))
      = (l.dropWhile Char.isWhitespace).rdropWhile Char.isWhitespace := by
  set p := Char.isWhitespace with hp
  set A := l.dropWhile p with hA
  have h1 : (A.rdropWhile p).dropWhile p = A.rdropWhile p := by
    rw [List.dropWhile_eq_self_iff]
    intro hl
    have hpre : A.rdropWhile p <+: A := List.rdropWhile_prefix p A
    have hlenA : 0 < A.length := lt_of_lt_of_le hl hpre.length_le
    have hget : (A.rdropWhile p).get ⟨0, hl⟩ = A.get ⟨0, hlenA⟩ := by
      simp only [List.get_eq_getElem]
      exact hpre.getElem hl
    rw [hget]
    exact List.dropWhile_get_zero_not p l hlenA
  rw [h1, List.rdropWhile_idempotent]

/-- Stripping is idempotent. -/
theorem pyStrip_idem (s : String) : pyStrip (pyStrip s) = pyStrip s := by
  apply String.ext
  rw [pyStrip_data, pyStrip_data]
  exact stripData_idem s.data

/-- Unfolding `lookup` one step. -/
theorem lookup_cons {κ α : Type} [BEq κ] (k : κ) (e : κ × α) (es : List (κ × α)) :
    List.lookup k (e :: es) = if k == e.1 then some e.2 else List.lookup k es := by
  rcases e with ⟨a, b⟩
  cases h : k == a <;> simp [List.lookup, h]

/-- The overwrite map of `dictInsert` is invisible to lookups of other keys. -/
theorem lookup_overwrite {κ α : Type} [DecidableEq κ] [BEq κ] [LawfulBEq κ]
    (d : List (κ × α)) (k k' : κ) (v : α) (hne : k' ≠ k) :
    (d.map (fun p => if p.1 = k then (k, v) else p)).lookup k' = d.lookup k' := by
  induction d with
  | nil => rfl
  | cons e es ih =>
    by_cases he : e.1 = k
    · have hb1 : (k' == k) = false := by simp [hne]
      have hb2 : (k' == e.1) = false := by simp [he, hne]
      simp [List.map_cons, if_pos he, lookup_cons, hb1, hb2, ih]
    · simp only [List.map_cons, if_neg he, lookup_cons]
      cases hb : (k' == e.1) <;> simp [ih]

/-- Lemma: `lookup` in the overwrite map of `dictInsert` at the overwritten key. -/
theorem lookup_overwrite_self {κ α : Type} [DecidableEq κ] [BEq κ] [LawfulBEq κ]
    (d : List (κ × α)) (k : κ) (v : α) (h : d.any (fun p => p.1 = k) = true) :
    (d.map (fun p => if p.1 = k then (k, v) else p)).lookup k = some v := by
  induction d with
  | nil => simp at h
  | cons e es ih =>
    by_cases he : e.1 = k
    · simp [List.map_cons, if_pos he, lookup_cons]
    · have hne : k ≠ e.1 := fun hk => he hk.symm
      have hb : (k == e.1) = false := by simp [hne]
      simp only [List.map_cons, if_neg he, lookup_cons, hb]
      simp only [Bool.false_eq_true, if_false]
      apply ih
      simp only [List.any_cons, Bool.or_eq_true, decide_eq_true_eq] at h
      rcases h with h | h
      · exact absurd h he
      · simpa using h

/-- Lemma: `lookup` in `d ++ [(k, v)]` at `k` when `d` has no entry at `k`. -/
theorem lookup_append_self {κ α : Type} [BEq κ] [LawfulBEq κ]
    (d : List (κ × α)) (k : κ) (v : α) (h : ∀ p ∈ d, p.1 ≠ k) :
    (d ++ [(k, v)]).lookup k = some v := by
  induction d with
  | nil => simp [lookup_cons]
  | cons e es ih =>
    have hne : k ≠ e.1 := fun hk => h e (by simp) hk.symm
    have hb : (k == e.1) = false := by simp [hne]
    simp only [List.cons_append, lookup_cons, hb]
    simp only [Bool.false_eq_true, if_false]
    exact ih (fun p hp => h p (by simp [hp]))

/-- Lemma: `lookup` after a dict insert at the same key. -/
theorem lookup_dictInsert_self {κ α : Type} [DecidableEq κ] [BEq κ] [LawfulBEq κ]
    (d : List (κ × α)) (k : κ) (v : α) : (dictInsert d k v).lookup k = some v := by
  unfold dictInsert
  by_cases h : d.any (fun p => p.1 = k)
  · simp only [h, if_true]
    exact lookup_overwrite_self d k v h
  · simp only [h, if_false]
    refine lookup_append_self d k v (fun p hp hk => h ?_)
    simp only [List.any_eq_true, decide_eq_true_eq]
    exact ⟨p, hp, hk⟩

/-- Appending a single entry at another key is invisible to `lookup`. -/
theorem lookup_append_single_ne {κ α : Type} [BEq κ] [LawfulBEq κ]
    (d : List (κ × α)) (k k' : κ) (v : α) (hne : k' ≠ k) :
    (d ++ [(k, v)]).lookup k' = d.lookup k' := by
  induction d with
  | nil =>
    have hb : (k' == k) = false := by simp [hne]
    simp [lookup_cons, hb]
  | cons e es ih =>
    simp only [List.cons_append, lookup_cons, ih]

/-- Lemma: `lookup` after a dict insert at a different key. -/
theorem lookup_dictInsert_ne {κ α : Type} [DecidableEq κ] [BEq κ] [LawfulBEq κ]
    (d : List (κ × α)) (k k' : κ) (v : α) (hne : k' ≠ k) :
    (dictInsert d k v).lookup k' = d.lookup k' := by
  unfold dictInsert
  by_cases h : d.any (fun p => p.1 = k)
  · simp only [h, if_true]
    exact lookup_overwrite d k k' v hne
  · simp only [h, if_false]
    exact lookup_append_single_ne d k k' v hne

/-! ### Helper lemmas: normalisation and the row classifier -/

/-- A canonical name produced by the alias table is never the exclude
sentinel label. -/
theorem normalizeDrugName_some_ne (s c : String) (h : normalizeDrugName s = some c) :
    c ≠ "Other, please specify" := by
  simp only [normalizeDrugName] at h
  cases hf : DRUG_ALIASES.findSome?
      (fun p => if strContains (pyStrip s) p.1 || pyStartsWith (pyStrip s) (pyTake p.1 20)
        then some p.2 else none) with
  | some c0 =>
    rw [hf] at h
    have hc0 : c0 = some c := h
    rcases List.exists_of_findSome?_eq_some hf with ⟨p, hp, hfp⟩
    have hp2 : p.2 = c0 := by
      by_cases hcond : (strContains (pyStrip s) p.1
          || pyStartsWith (pyStrip s) (pyTake p.1 20)) = true
      · rw [if_pos hcond] at hfp
        exact Option.some.inj hfp
      · rw [if_neg hcond] at hfp
        exact absurd hfp (by simp)
    have hthis : p.2 = some c := by rw [hp2, hc0]
    simp only [DRUG_ALIASES, List.mem_cons, List.not_mem_nil, or_false] at hp
    rcases hp with hp | hp | hp | hp
    · rw [hp] at hthis
      injection hthis with h2
      subst h2
      decide
    · rw [hp] at hthis
      injection hthis with h2
      subst h2
      decide
    · rw [hp] at hthis
      exact absurd hthis (by simp)
    · rw [hp] at hthis
      injection hthis with h2
      subst h2
      decide
  | none =>
    rw [hf] at h
    have h2 : (if pyStrip s = "" then none else some (pyStrip s)) = some c := h
    have hall := List.findSome?_eq_none_iff.mp hf
    have h3 := hall ("Other, please specify", none) (by simp [DRUG_ALIASES])
    by_cases hcond : (strContains (pyStrip s) "Other, please specify"
        || pyStartsWith (pyStrip s) (pyTake "Other, please specify" 20)) = true
    · rw [if_pos hcond] at h3
      exact absurd h3 (by simp)
    · have hc : c = pyStrip s := by
        by_cases hs : pyStrip s = ""
        · rw [if_pos hs] at h2
          exact absurd h2 (by simp)
        · rw [if_neg hs] at h2
          exact (Option.some.inj h2).symm
      intro hcs
      apply hcond
      have : pyStrip s = "Other, please specify" := by rw [← hc, hcs]
      rw [this]
      simp [strContains_self]

/-- The name a data row is keyed under is never the exclude sentinel. -/
theorem normalize_getD_ne (s : String)
    (h : ¬ (normalizeDrugName s = none ∧ s = "Other, please specify")) :
    (normalizeDrugName s).getD s ≠ "Other, please specify" := by
  cases hn : normalizeDrugName s with
  | none =>
    simp only [Option.getD_none]
    intro hs
    exact h ⟨hn, hs⟩
  | some c =>
    simp only [Option.getD_some]
    exact normalizeDrugName_some_ne s c hn

/-- A label whose lowercased trimmed text contains `total patients` or
`unique` satisfies the section-header heuristic (through its rollup branch). -/
theorem looksLike_of_rollup (s : String)
    (h : strContains (pyLower (pyStrip s)) "total patients" = true ∨
      strContains (pyLower (pyStrip s)) "unique" = true) :
    looksLikeIndicationSection s = true := by
  unfold looksLikeIndicationSection
  have hne : ¬ (pyLower (pyStrip s) = "") := by
    intro h0
    rcases h with h | h <;> rw [h0] at h <;> exact absurd h (by decide)
  rcases h with h | h <;> simp [hne, h]

/-- Each primary-pass step leaves the state unchanged, emits one record
keyed under a non-excluded name for the active section, or only updates the
section to the trimmed label of the row. -/
theorem detailsStep_shape (headers : List String) (tIdx nc : Nat) (st : PState)
    (row : List Cell) :
    (detailsStep headers tIdx nc st row = st) ∨
    (∃ ind, st.indication = some ind ∧
      ∃ typ ms, typ ≠ "Other, please specify" ∧
        detailsStep headers tIdx nc st row = { st with recs := st.recs ++ [((ind, typ), ms)] }) ∨
    ((detailsStep headers tIdx nc st row).recs = st.recs ∧
      (detailsStep headers tIdx nc st row).indication
        = some (pyStrip (pyStr (row.getD tIdx Cell.empty)))) := by
  simp only [detailsStep]
  split
  · left; rfl
  · split
    · left; rfl
    · split
      · left; rfl
      · split
        · split
          · left; rfl
          next ind hind =>
            split
            · left; rfl
            next hguard =>
              right; left
              exact ⟨ind, hind, _, _, normalize_getD_ne _ hguard, rfl⟩
        · split
          · right; right; exact ⟨rfl, rfl⟩
          · left; rfl

/-- Records accumulated by the primary pass are never keyed under the
exclude sentinel. -/
theorem foldl_detailsStep_typ (headers : List String) (tIdx nc : Nat) :
    ∀ (rows : List (List Cell)) (st : PState) (r : Rec),
      r ∈ (rows.foldl (detailsStep headers tIdx nc) st).recs →
      r ∈ st.recs ∨ r.1.2 ≠ "Other, please specify"
  | [], _, _ => fun h => Or.inl h
  | row :: rows, st, r => fun h => by
    rcases foldl_detailsStep_typ headers tIdx nc rows (detailsStep headers tIdx nc st row) r h
      with h1 | h1
    · rcases detailsStep_shape headers tIdx nc st row
        with hs | ⟨ind, _, typ, ms, htyp, hs⟩ | ⟨hs, _⟩
      · rw [hs] at h1
        exact Or.inl h1
      · rw [hs] at h1
        simp only [List.mem_append, List.mem_singleton] at h1
        rcases h1 with h1 | h1
        · exact Or.inl h1
        · right
          rw [h1]
          exact htyp
      · rw [hs] at h1
        exact Or.inl h1
    · exact Or.inr h1

/-- Each fallback-pass step leaves the state unchanged, replaces the section
label with the trimmed label of the row, or emits one record keyed under a
non-excluded name for the current section label. -/
theorem fbStep_shape (headersFb : List String) (nc : Nat) (st : FbState) (row : List Cell) :
    (fbStep headersFb nc st row = st) ∨
    ((fbStep headersFb nc st row).recs = st.recs ∧
      (fbStep headersFb nc st row).indication = pyStrip (pyStr (row.getD 0 Cell.empty))) ∨
    (∃ typ ms, typ ≠ "Other, please specify" ∧
      fbStep headersFb nc st row = { st with recs := st.recs ++ [((st.indication, typ), ms)] }) := by
  simp only [fbStep]
  split
  · left; rfl
  · split
    · left; rfl
    · split
      · split
        · right; left; exact ⟨rfl, rfl⟩
        · left; rfl
      · split
        · left; rfl
        next hguard =>
          right; right
          exact ⟨_, _, normalize_getD_ne _ hguard, rfl⟩

/-- Records accumulated by the fallback pass are never keyed under the
exclude sentinel. -/
theorem foldl_fbStep_typ (headersFb : List String) (nc : Nat) :
    ∀ (rows : List (List Cell)) (st : FbState) (r : Rec),
      r ∈ (rows.foldl (fbStep headersFb nc) st).recs →
      r ∈ st.recs ∨ r.1.2 ≠ "Other, please specify"
  | [], _, _ => fun h => Or.inl h
  | row :: rows, st, r => fun h => by
    rcases foldl_fbStep_typ headersFb nc rows (fbStep headersFb nc st row) r h with h1 | h1
    · rcases fbStep_shape headersFb nc st row with hs | ⟨hs, _⟩ | ⟨typ, ms, htyp, hs⟩
      · rw [hs] at h1
        exact Or.inl h1
      · rw [hs] at h1
        exact Or.inl h1
      · rw [hs] at h1
        simp only [List.mem_append, List.mem_singleton] at h1
        rcases h1 with h1 | h1
        · exact Or.inl h1
        · right
          rw [h1]
          exact htyp
    · exact Or.inr h1

/-- Fold invariant of the fallback pass: any property of section labels that
holds for the initial label, all accumulated records, and every row label, is
preserved. -/
theorem foldl_fbStep_ind (headersFb : List String) (nc : Nat) (Q : String → Prop) :
    ∀ (rows : List (List Cell)) (st : FbState),
      (∀ row ∈ rows, Q (pyStrip (pyStr (row.getD 0 Cell.empty)))) →
      Q st.indication → (∀ r ∈ st.recs, Q r.1.1) →
      Q ((rows.foldl (fbStep headersFb nc) st).indication) ∧
        ∀ r ∈ (rows.foldl (fbStep headersFb nc) st).recs, Q r.1.1
  | [], st => fun _ hind hrecs => ⟨hind, hrecs⟩
  | row :: rows, st => fun hrows hind hrecs => by
    apply foldl_fbStep_ind headersFb nc Q rows (fbStep headersFb nc st row)
      (fun rw hrw => hrows rw (by simp [hrw]))
    all_goals
      rcases fbStep_shape headersFb nc st row with hs | ⟨hs1, hs2⟩ | ⟨typ, ms, _, hs⟩
    · rw [hs]; exact hind
    · rw [hs2]; exact hrows row (by simp)
    · rw [hs]; exact hind
    · rw [hs]; exact hrecs
    · intro r hr
      rw [hs1] at hr
      exact hrecs r hr
    · rw [hs]
      intro r hr
      simp only [List.mem_append, List.mem_singleton] at hr
      rcases hr with hr | hr
      · exact hrecs r hr
      · rw [hr]
        exact hind

/-- Sorting the extracted records is a permutation. -/
theorem sortRecs_perm (rs : List Rec) : (sortRecs rs).Perm rs :=
  List.perm_insertionSort _ rs

/-- The rows of the parsed table are the sorted selected records. -/
theorem parse_rows (g : Grid) :
    (parseDetailsSheet g).rows
      = if (selectedRecords g).isEmpty then [] else sortRecs (selectedRecords g) := by
  simp only [parseDetailsSheet]
  split <;> rfl

/-- Every selected record comes from the primary pass or the fallback pass. -/
theorem selectedRecords_sub (g : Grid) (r : Rec) (h : r ∈ selectedRecords g) :
    r ∈ primaryRecords g ∨ r ∈ fallbackRecords g := by
  simp only [selectedRecords] at h
  split at h
  · simp at h
  · split at h
    · simp at h
    · split at h
      · split at h
        · exact Or.inr h
        · simp at h
      · exact Or.inl h

/-- No primary-pass record is keyed under the exclude sentinel. -/
theorem primaryRecords_typ (g : Grid) (r : Rec) (h : r ∈ primaryRecords g) :
    r.1.2 ≠ "Other, please specify" := by
  unfold primaryRecords at h
  split at h
  · simp at h
  · rcases foldl_detailsStep_typ _ _ _ _ _ r h with h1 | h1
    · simp at h1
    · exact h1

/-- No fallback-pass record is keyed under the exclude sentinel. -/
theorem fallbackRecords_typ (g : Grid) (r : Rec) (h : r ∈ fallbackRecords g) :
    r.1.2 ≠ "Other, please specify" := by
  unfold fallbackRecords at h
  rcases foldl_fbStep_typ _ _ _ _ r h with h1 | h1
  · simp at h1
  · exact h1

/-! ### Claims -/

/-- C1, counterexample. The concrete scenario of the claim fails on the code: on
the grid with header row 2, key column 0 and the generic banners
`Category X` / `Category Y`, the section heuristic recognises neither banner,
the primary pass drops every row, and the fallback pass (blank header row 0)
emits the two keys with NO metric columns — so `(Category X, Widget A)` does
not map `Metric1` to `10` as claimed: its metric dict has no `Metric1` at
all (second conjunct). -/
theorem claim1_counterexample :
    parseDetailsSheet gridC1 = tableC1 ∧
    (parseDetailsSheet gridC1).rows.map (fun r => r.2.lookup "Metric1") = [none, none] := by
  decide

/-- C1, amended. With the two banners replaced by labels the section
heuristic recognises (`Pediatric growth hormone deficiency (pGHD)` and
`Turner syndrome`), extraction yields exactly the two claimed records:
the first with Metric1=10, Metric2=2, Metric3=8 and the second (blank form)
with all metrics 0. -/
theorem claim1_amended : parseDetailsSheet gridC1A = tableC1A := by
  decide

/-- C2, counterexample. A numeric-bearing row whose raw label contains the
exclude alias `Other, please specify` without being exactly equal to it IS
emitted, keyed under its raw label: the exclusion branch requires the exact
sentinel label, and otherwise the `None` canonical value falls through to
the raw label. -/
theorem claim2_counterexample :
    (parseDetailsSheet gridC2).rows = [recC2] ∧
    strContains "Other, please specify (ngenla)" "Other, please specify" = true := by
  decide

/-- C2, amended. The absorbing exclusion holds only for the exact sentinel:
for every input grid, no record of the extracted table is keyed under the
label `Other, please specify` (rows matching the exclude alias only as a
substring or prefix are emitted under their raw label, as the counterexample
shows). -/
theorem claim2_amended (g : Grid) (r : Rec) (h : r ∈ (parseDetailsSheet g).rows) :
    r.1.2 ≠ "Other, please specify" := by
  rw [parse_rows g] at h
  by_cases he : (selectedRecords g).isEmpty
  · rw [if_pos he] at h
    simp at h
  · rw [if_neg he] at h
    have hmem : r ∈ selectedRecords g := (sortRecs_perm _).mem_iff.mp h
    rcases selectedRecords_sub g r hmem with h1 | h1
    · exact primaryRecords_typ g r h1
    · exact fallbackRecords_typ g r h1

/-- C2, witness: the amended theorem applied to the record emitted from the counterexample grid. -/
theorem claim2_witness : recC2.1.2 ≠ "Other, please specify" :=
  claim2_amended gridC2 recC2 (by decide)

/-- C3, counterexample. Two classified data rows with the same
`(Section, CanonicalName)` key produce two table rows — `set_index` does not
deduplicate, so there is no last-write-wins overwrite: both `M1 = 1` and
`M1 = 2` survive. -/
theorem claim3_counterexample :
    (parseDetailsSheet gridC3).rows =
      [(("Turner syndrome", "Widget A"), [("M1", 1)]),
       (("Turner syndrome", "Widget A"), [("M1", 2)])] := by
  decide

/-- C3, amended. The extracted table does not deduplicate keys: sorting by
key is a permutation of the classified records, so every key occurs in the
table exactly as many times as data rows were classified under it (duplicate
keys repeat rather than overwrite). -/
theorem claim3_amended (g : Grid) (k : Key) :
    ((parseDetailsSheet g).rows.map Prod.fst).countP (fun x => x = k)
      = ((selectedRecords g).map Prod.fst).countP (fun x => x = k) := by
  rw [parse_rows g]
  by_cases he : (selectedRecords g).isEmpty
  · rw [if_pos he]
    rw [List.isEmpty_iff] at he
    rw [he]
  · rw [if_neg he]
    exact ((sortRecs_perm (selectedRecords g)).map Prod.fst).countP_eq _

/-- C5, counterexample. On the row `["X", "abc", 5]` with key column 0, the
numeric-bearing test of the code holds (the rescan fires because the first metric
cell is not numeric-coercible — whether or not it is blank — and finds `5`),
while the reading in the claim (rescan only when the first cell is blank, over the
five cells right of the first cell) is false. -/
theorem claim5_counterexample :
    hasNumericTest rowC5 0 3 = true ∧ specNumericBearing rowC5 0 3 = false := by
  decide

/-- C5, amended. The numeric-bearing test holds iff at least one of the
cells at column offsets 1..5 right of the key column, within the grid width,
is numeric-coercible: the rescan fires whenever the first metric cell is not
numeric-coercible (blank or not), and it rescans offsets 1 through 5 — the
first metric cell plus four further cells — not the five cells beyond it. -/
theorem claim5_amended (row : List Cell) (tIdx nc : Nat) :
    hasNumericTest row tIdx nc = true ↔
      ∃ j, tIdx + 1 ≤ j ∧ j < min (tIdx + 6) nc ∧
        isNumericCell (row.getD j Cell.empty) = true := by
  simp only [hasNumericTest]
  by_cases h1 : tIdx + 1 < nc
  · rw [if_pos h1]
    cases hfm : isNumericCell (row.getD (tIdx + 1) Cell.empty) with
    | true =>
      rw [if_neg (by simp)]
      constructor
      · intro _
        exact ⟨tIdx + 1, Nat.le_refl _, by omega, hfm⟩
      · intro _
        rfl
    | false =>
      rw [if_pos (by simp [h1])]
      rw [List.any_eq_true]
      constructor
      · rintro ⟨j, hj, hf⟩
        rw [List.mem_range'_1] at hj
        exact ⟨j, by omega, by omega, hf⟩
      · rintro ⟨j, hj1, hj2, hf⟩
        exact ⟨j, by rw [List.mem_range'_1]; omega, hf⟩
  · rw [if_neg h1]
    constructor
    · intro h
      rw [if_neg (by simp [h1])] at h
      exact absurd h (by decide)
    · rintro ⟨j, hj1, hj2, _⟩
      exfalso
      omega

/-- C6, counterexample. With the section `Turner syndrome` active, the
numeric-bearing row `["Total patients (UNIQUE)", 42]` IS classified as a
data row and emitted as a record — the rollup guard only applies to rows
with no numeric cell. -/
theorem claim6_counterexample :
    (parseDetailsSheet gridC6).rows =
      [(("Turner syndrome", "Total patients (UNIQUE)"), [("M1", 42)])] := by
  decide

/-- C6, amended. Per classification step: (a) a row whose trimmed key text
contains `total patients` (case-insensitively) never changes the active
section; (b) a row whose trimmed key text contains `total patients` or
`unique` and is NOT numeric-bearing is never classified as a data row (its
records are unchanged). Unlike the original claim, a numeric-bearing rollup
row is classified as data (see the counterexample), and a non-numeric row
containing `unique` but not `total patients` does change the section. -/
theorem claim6_amended (headers : List String) (tIdx nc : Nat) (st : PState)
    (row : List Cell) :
    (strContains (pyLower (pyStrip (pyStr (row.getD tIdx Cell.empty)))) "total patients" = true →
      (detailsStep headers tIdx nc st row).indication = st.indication) ∧
    ((strContains (pyLower (pyStrip (pyStr (row.getD tIdx Cell.empty)))) "total patients" = true ∨
        strContains (pyLower (pyStrip (pyStr (row.getD tIdx Cell.empty)))) "unique" = true) →
      hasNumericTest row tIdx nc = false →
      (detailsStep headers tIdx nc st row).recs = st.recs) := by
  constructor
  · intro htp
    simp only [detailsStep]
    split
    · rfl
    · split
      · rfl
      · split
        · rfl
        · split
          · split
            · rfl
            · split
              · rfl
              · rfl
          · split
            · next hcond =>
              rw [htp] at hcond
              simp at hcond
            · rfl
  · intro hlabel hnum
    have hlook : looksLikeIndicationSection (pyStrip (pyStr (row.getD tIdx Cell.empty))) = true := by
      apply looksLike_of_rollup
      rw [pyStrip_idem]
      exact hlabel
    simp only [detailsStep]
    split
    · rfl
    · split
      · rfl
      · split
        · rfl
        · split
          · next hdata =>
            exfalso
            rw [hnum, hlook] at hdata
            simp at hdata
          · split
            · rfl
            · rfl

/-- C6, witness: the amended theorem applied to a non-numeric rollup row
under an active section — neither the section nor the records change. -/
theorem claim6_witness :
    (detailsStep ["Type", "M1"] 0 2 stC6 rowC6).indication = stC6.indication ∧
    (detailsStep ["Type", "M1"] 0 2 stC6 rowC6).recs = stC6.recs :=
  ⟨(claim6_amended ["Type", "M1"] 0 2 stC6 rowC6).1 (by decide),
   (claim6_amended ["Type", "M1"] 0 2 stC6 rowC6).2 (Or.inl (by decide)) (by decide)⟩

/-- C7, counterexample. Two refutations in one: on `gridC7a` no header
keyword matches, so the primary pass produces zero records, yet extraction
returns the empty frame WITHOUT running the fallback (which would have
produced a record) — the "iff zero records" gating is false; and on
`gridC7b` the fallback pass runs and emits a record whose section label is
`Section Z`, not the fixed `"Details"` placeholder. -/
theorem claim7_counterexample :
    (parseDetailsSheet gridC7a = emptyDF ∧ fallbackRecords gridC7a ≠ []) ∧
    (parseDetailsSheet gridC7b).rows = [(("Section Z", "Widget"), [("M1", 5)])] := by
  decide

/-- C7, amended. The fallback pass contributes records only when a header
keyword was located, the primary pass produced zero records, and the grid has
at least 2 rows and 2 columns: (a) with no located header, extraction is
empty without attempting the fallback; (b) a non-empty primary pass is used
as-is; (c) under the gating conditions the output is exactly the (possibly
empty) fallback result; (d) a too-narrow grid yields the empty frame even
with zero primary records; (e) the section label of each fallback record is the
`"Details"` placeholder or the trimmed key label of some grid row — an
overriding row replaces the placeholder, so it is not constant. -/
theorem claim7_amended (g : Grid) :
    (findHeader g = none → parseDetailsSheet g = emptyDF) ∧
    (2 ≤ nrows g → ncols g ≠ 0 → primaryRecords g ≠ [] →
      parseDetailsSheet g = mkDetailsDF (primaryRecords g)) ∧
    ((findHeader g).isSome → primaryRecords g = [] → 2 ≤ nrows g → 2 ≤ ncols g →
      parseDetailsSheet g =
        (if fallbackRecords g = [] then emptyDF else mkDetailsDF (fallbackRecords g))) ∧
    ((findHeader g).isSome → primaryRecords g = [] → ncols g < 2 →
      parseDetailsSheet g = emptyDF) ∧
    (∀ r ∈ fallbackRecords g, r.1.1 = "Details" ∨
      ∃ row ∈ g.cells, r.1.1 = pyStrip (pyStr (row.getD 0 Cell.empty))) := by
  refine ⟨?_, ?_, ?_, ?_, ?_⟩
  · intro hnone
    have hsel : selectedRecords g = [] := by
      simp only [selectedRecords]
      split
      · rfl
      · rw [hnone]
    simp only [parseDetailsSheet, hsel]
    rfl
  · intro hr hc hp
    obtain ⟨v, hval⟩ : ∃ v, findHeader g = some v := by
      cases hf : findHeader g with
      | none => exact absurd (by simp only [primaryRecords]; rw [hf]) hp
      | some v => exact ⟨v, rfl⟩
    have hpe : (primaryRecords g).isEmpty = false := by
      rw [List.isEmpty_eq_false_iff_exists_mem]
      rcases List.exists_mem_of_ne_nil _ hp with ⟨x, hx⟩
      exact ⟨x, hx⟩
    have hsel : selectedRecords g = primaryRecords g := by
      simp only [selectedRecords]
      rw [if_neg (by simp; omega)]
      rw [hval]
      rw [hpe]
      simp
    simp only [parseDetailsSheet, hsel, hpe]
    simp
  · intro hh hp hr hc
    have hsel : selectedRecords g = fallbackRecords g := by
      simp only [selectedRecords]
      rw [if_neg (by simp; omega)]
      rcases Option.isSome_iff_exists.mp hh with ⟨v, hval⟩
      rw [hval]
      rw [hp]
      simp only [List.isEmpty_nil, if_true]
      rw [if_pos (by simp; omega)]
    simp only [parseDetailsSheet, hsel]
    by_cases hf : fallbackRecords g = []
    · rw [if_pos hf, hf]
      rfl
    · rw [if_neg hf]
      rw [if_neg (by simpa [List.isEmpty_iff] using hf)]
  · intro hh hp hc
    by_cases hguard : nrows g < 2 ∨ ncols g = 0
    · have hsel : selectedRecords g = [] := by
        simp only [selectedRecords]
        rw [if_pos (by simp; omega)]
      simp only [parseDetailsSheet, hsel]
      rfl
    · have hsel : selectedRecords g = [] := by
        simp only [selectedRecords]
        rw [if_neg (by simp; omega)]
        rcases Option.isSome_iff_exists.mp hh with ⟨v, hval⟩
        rw [hval]
        rw [hp]
        simp only [List.isEmpty_nil, if_true]
        rw [if_neg (by simp; omega)]
      simp only [parseDetailsSheet, hsel]
      rfl
  · intro r hr
    unfold fallbackRecords at hr
    refine (foldl_fbStep_ind (headersAt g 0) (ncols g)
      (fun s => s = "Details" ∨ ∃ row ∈ g.cells, s = pyStrip (pyStr (row.getD 0 Cell.empty)))
      (g.cells.drop 1) { indication := "Details", recs := [] }
      (fun row hrow => Or.inr ⟨row, List.drop_subset _ _ hrow, rfl⟩)
      (Or.inl rfl) ?_).2 r hr
    intro x hx
    simp at hx

/-- C7, witness: the fallback branch of the amended theorem applied to the grid
on which the fallback actually fires. -/
theorem claim7_witness :
    parseDetailsSheet gridC7b =
      (if fallbackRecords gridC7b = [] then emptyDF
       else mkDetailsDF (fallbackRecords gridC7b)) :=
  (claim7_amended gridC7b).2.2.1 (by decide) (by decide) (by decide) (by decide)

/-! ### Helper lemmas: the reconciler -/

/-- Sorting keys is a permutation. -/
theorem sortKeys_perm (ks : List Key) : (sortKeys ks).Perm ks :=
  List.perm_insertionSort _ ks

/-- The sorted key union has no duplicates. -/
theorem sortedUnion_nodup (a b : List Key) : (sortedUnion a b).Nodup :=
  (sortKeys_perm ((a ++ b).dedup)).nodup_iff.mpr (List.nodup_dedup _)

/-- Membership in the sorted key union. -/
theorem mem_sortedUnion (a b : List Key) (k : Key) :
    k ∈ sortedUnion a b ↔ k ∈ a ∨ k ∈ b := by
  rw [sortedUnion, (sortKeys_perm _).mem_iff, List.mem_dedup, List.mem_append]

/-- Looking a key up in a keyed map of a duplicate-free list. -/
theorem lookup_map_of_nodup {β : Type} (f : Key → β) :
    ∀ (l : List Key), l.Nodup → ∀ k ∈ l,
      (l.map (fun k => (k, f k))).lookup k = some (f k)
  | [], _, k => fun hk => absurd hk (List.not_mem_nil k)
  | a :: as, hnd, k => fun hk => by
    rcases List.mem_cons.mp hk with hk | hk
    · subst hk
      simp [List.map_cons, lookup_cons]
    · have hne : k ≠ a := fun he => (List.nodup_cons.mp hnd).1 (he ▸ hk)
      have hb : (k == a) = false := by simp [hne]
      simp only [List.map_cons, lookup_cons, hb]
      simp only [Bool.false_eq_true, if_false]
      exact lookup_map_of_nodup f as (List.nodup_cons.mp hnd).2 k hk

/-- A field of a listed metric pair appears among the field names of the pairs. -/
theorem mem_fieldNames_of_mem (p : String × String) (f : String) :
    ∀ (ps : List (String × String)), p ∈ ps → f ∈ fieldTriple p → f ∈ fieldNames ps
  | [], hp, _ => absurd hp (List.not_mem_nil p)
  | a :: as, hp, hf => by
    simp only [fieldNames, List.mem_append]
    rcases List.mem_cons.mp hp with hp | hp
    · exact Or.inl (hp ▸ hf)
    · exact Or.inr (mem_fieldNames_of_mem p f as hp hf)

/-- Folding further pairs over a comparison row does not disturb a field
that none of them writes. -/
theorem lookup_foldl_cdInsert_ne (dfOld dfNew : DetailsDF) (k : Key) (f : String) :
    ∀ (ps : List (String × String)) (rd : List (String × ℚ)),
      (∀ p ∈ ps, f ∉ fieldTriple p) →
      (ps.foldl (cdInsert dfOld dfNew k) rd).lookup f = rd.lookup f
  | [], rd => fun _ => rfl
  | a :: as, rd => fun hf => by
    have hfa : f ∉ fieldTriple a := hf a (by simp)
    simp only [fieldTriple, List.mem_cons, List.not_mem_nil, or_false, not_or] at hfa
    obtain ⟨h1, h2, h3⟩ := hfa
    have hstep :
        (cdInsert dfOld dfNew k rd a).lookup f = rd.lookup f := by
      simp only [cdInsert]
      rw [lookup_dictInsert_ne _ _ _ _ h3, lookup_dictInsert_ne _ _ _ _ h2,
        lookup_dictInsert_ne _ _ _ _ h1]
    calc ((a :: as).foldl (cdInsert dfOld dfNew k) rd).lookup f
        = (as.foldl (cdInsert dfOld dfNew k) (cdInsert dfOld dfNew k rd a)).lookup f := rfl
      _ = (cdInsert dfOld dfNew k rd a).lookup f :=
          lookup_foldl_cdInsert_ne dfOld dfNew k f as _ (fun p hp => hf p (by simp [hp]))
      _ = rd.lookup f := hstep

/-- The three fields of each matched metric pair hold the old / new
values of that pair and their difference, provided the field names of the pairs are distinct. -/
theorem lookup_foldl_cdInsert (dfOld dfNew : DetailsDF) (k : Key) :
    ∀ (ps : List (String × String)) (rd : List (String × ℚ)) (p : String × String),
      p ∈ ps → (fieldNames ps).Nodup →
      (ps.foldl (cdInsert dfOld dfNew k) rd).lookup (truncMetric p.1 ++ "_old")
          = some (cdVals dfOld dfNew k p).1 ∧
      (ps.foldl (cdInsert dfOld dfNew k) rd).lookup (truncMetric p.1 ++ "_new")
          = some (cdVals dfOld dfNew k p).2 ∧
      (ps.foldl (cdInsert dfOld dfNew k) rd).lookup (truncMetric p.1 ++ "_change")
          = some ((cdVals dfOld dfNew k p).2 - (cdVals dfOld dfNew k p).1)
  | [], _, p => fun hp _ => absurd hp (List.not_mem_nil p)
  | a :: as, rd, p => fun hp hnd => by
    have hnd' := hnd
    simp only [fieldNames] at hnd'
    rw [List.nodup_append] at hnd'
    obtain ⟨hnda, hndas, hdisj⟩ := hnd'
    rcases List.mem_cons.mp hp with hpa | hpas
    · subst hpa
      have hon : truncMetric p.1 ++ "_old" ≠ truncMetric p.1 ++ "_new" := by
        intro he
        rw [fieldTriple, List.nodup_cons] at hnda
        exact hnda.1 (by rw [he]; simp)
      have hoc2 : truncMetric p.1 ++ "_old" ≠ truncMetric p.1 ++ "_change" := by
        intro he
        rw [fieldTriple, List.nodup_cons] at hnda
        exact hnda.1 (by rw [he]; simp)
      have hnc2 : truncMetric p.1 ++ "_new" ≠ truncMetric p.1 ++ "_change" := by
        intro he
        rw [fieldTriple, List.nodup_cons, List.nodup_cons] at hnda
        exact hnda.2.1 (by rw [he]; simp)
      have hrest : ∀ f ∈ fieldTriple p,
          (((p :: as).foldl (cdInsert dfOld dfNew k) rd)).lookup f
            = (cdInsert dfOld dfNew k rd p).lookup f := by
        intro f hf
        exact lookup_foldl_cdInsert_ne dfOld dfNew k f as (cdInsert dfOld dfNew k rd p)
          (fun q hq hfq => hdisj hf (mem_fieldNames_of_mem q f as hq hfq))
      refine ⟨?_, ?_, ?_⟩
      · rw [hrest (truncMetric p.1 ++ "_old") (by simp [fieldTriple])]
        simp only [cdInsert]
        rw [lookup_dictInsert_ne _ _ _ _ hoc2, lookup_dictInsert_ne _ _ _ _ hon,
          lookup_dictInsert_self]
      · rw [hrest (truncMetric p.1 ++ "_new") (by simp [fieldTriple])]
        simp only [cdInsert]
        rw [lookup_dictInsert_ne _ _ _ _ hnc2, lookup_dictInsert_self]
      · rw [hrest (truncMetric p.1 ++ "_change") (by simp [fieldTriple])]
        simp only [cdInsert]
        rw [lookup_dictInsert_self]
    · exact lookup_foldl_cdInsert dfOld dfNew k as (cdInsert dfOld dfNew k rd a) p hpas hndas

/-- In a table with unique keys, a present key selects exactly one row, and
`filter` / `find?` agree on it. -/
theorem filter_unique (rows : List Rec) (k : Key) :
    (rows.map Prod.fst).Nodup → k ∈ rows.map Prod.fst →
      ∃ r, rows.filter (fun r => r.1 == k) = [r] ∧ rows.find? (fun r => r.1 == k) = some r := by
  induction rows with
  | nil => intro _ hk; simp at hk
  | cons a as ih =>
    intro hnd hk
    rw [List.map_cons, List.nodup_cons] at hnd
    obtain ⟨hna, hndas⟩ := hnd
    by_cases ha : a.1 = k
    · have hb : (a.1 == k) = true := by simp [ha]
      have hfil : as.filter (fun r => r.1 == k) = [] := by
        rw [List.filter_eq_nil_iff]
        intro r hr
        simp only [beq_iff_eq]
        intro hrk
        exact hna (ha ▸ hrk ▸ List.mem_map_of_mem Prod.fst hr)
      refine ⟨a, ?_, ?_⟩
      · simp [List.filter_cons, hb, hfil]
      · simp [List.find?_cons, hb]
    · have hb : (a.1 == k) = false := by simp [ha]
      have hk2 : k ∈ as.map Prod.fst := by
        rcases List.mem_cons.mp (List.map_cons Prod.fst a as ▸ hk) with hk1 | hk2
        · exact absurd hk1.symm ha
        · exact hk2
      rcases ih hndas hk2 with ⟨r, hfil, hfind⟩
      exact ⟨r, by simp [List.filter_cons, hb, hfil],
        by simp [List.find?_cons, hb, hfind]⟩

/-- One side of the `compare_details` value computation, in terms of
`presentVal`, when that keys on that side are unique. -/
theorem atSide_eq (df : DetailsDF) (k : Key) (c : String)
    (hk : (df.rows.map Prod.fst).Nodup) :
    (if (df.rows.map Prod.fst).contains k && df.cols.contains c then
        (atCellE df k c).map (fun o => o.getD 0)
      else Except.ok 0)
      = Except.ok (presentVal df k c) := by
  by_cases hcond : ((df.rows.map Prod.fst).contains k && df.cols.contains c) = true
  · rw [if_pos hcond, presentVal, if_pos hcond]
    have hmem : k ∈ df.rows.map Prod.fst := by
      rw [Bool.and_eq_true] at hcond
      simpa using hcond.1
    rcases filter_unique df.rows k hk hmem with ⟨r, hfil, hfind⟩
    rw [atCellE, hfil, hfind]
    rfl
  · rw [if_neg hcond, presentVal, if_neg hcond]

/-- The value pair read by `compare_details` equals the present-side values
(zero-filled) when both tables have unique keys. -/
theorem cdVals_eq (dfOld dfNew : DetailsDF) (k : Key) (p : String × String)
    (hko : (dfOld.rows.map Prod.fst).Nodup) (hkn : (dfNew.rows.map Prod.fst).Nodup) :
    cdVals dfOld dfNew k p = (presentVal dfOld k p.1, presentVal dfNew k p.2) := by
  simp only [cdVals]
  rw [atSide_eq dfOld k p.1 hko, atSide_eq dfNew k p.2 hkn]

/-- An absent key reads as `0.0`. -/
theorem presentVal_of_not_mem (df : DetailsDF) (k : Key) (c : String)
    (h : k ∉ df.rows.map Prod.fst) : presentVal df k c = 0 := by
  rw [presentVal, if_neg]
  intro hcond
  rw [Bool.and_eq_true] at hcond
  exact h (by simpa using hcond.1)

/-- C4, counterexample. Two matched metric pairs whose old-side labels share
their first 35 characters collapse to a single field triple: the display
label is the 35-character truncation, so the `_old`/`_new`/
`_change` fields of the later pair overwrite those of the earlier pair (the
sole `_old` field holds `2`, from the second pair — the value `1` of the
first pair is gone), and the row
holds 3 fields although 2 pairs matched. So "exactly one ComparisonRow per
matched metric pair" fails. -/
theorem claim4_counterexample :
    (compareDetails dfOldC4 dfNewC4).map (fun r => (r.1, r.2.map Prod.fst)) =
      [(("S", "T"),
        ["AAAAAAAAAAAAAAAAAAAAAAAAAAAAAAAAAAA_old",
         "AAAAAAAAAAAAAAAAAAAAAAAAAAAAAAAAAAA_new",
         "AAAAAAAAAAAAAAAAAAAAAAAAAAAAAAAAAAA_change"])] ∧
    (colPairs dfOldC4 dfNewC4).length = 2 ∧
    ((compareDetails dfOldC4 dfNewC4).lookup ("S", "T")).map
        (fun rd => rd.lookup "AAAAAAAAAAAAAAAAAAAAAAAAAAAAAAAAAAA_old")
      = some (some 2) := by
  decide

/-- C4, amended. For tables with unique keys and unique columns (pandas
`.at` semantics), at least one of them not pandas-empty (two empty tables
short-circuit to an empty output), and pairwise-distinct field names for the
matched metric pairs (pairs sharing a 35-character truncated label collapse,
see the counterexample): the reconciler emits exactly one row per key of the
sorted union, holding — per matched metric pair — the old value and new
value of that pair and their difference, with exactly `0.0` for a side the key is absent
from (so the difference equals the value of the present side). -/
theorem claim4_amended (dfOld dfNew : DetailsDF)
    (hko : (dfOld.rows.map Prod.fst).Nodup) (hkn : (dfNew.rows.map Prod.fst).Nodup)
    (_hoc : dfOld.cols.Nodup) (_hnc : dfNew.cols.Nodup)
    (hne : ¬ (dfEmpty dfOld = true ∧ dfEmpty dfNew = true))
    (hfld : (fieldNames (colPairs dfOld dfNew)).Nodup) :
    (compareDetails dfOld dfNew).map Prod.fst
        = sortedUnion (dfOld.rows.map Prod.fst) (dfNew.rows.map Prod.fst) ∧
    ∀ k ∈ sortedUnion (dfOld.rows.map Prod.fst) (dfNew.rows.map Prod.fst),
      ∃ rd, (compareDetails dfOld dfNew).lookup k = some rd ∧
        ∀ p ∈ colPairs dfOld dfNew,
          rd.lookup (truncMetric p.1 ++ "_old") = some (presentVal dfOld k p.1) ∧
          rd.lookup (truncMetric p.1 ++ "_new") = some (presentVal dfNew k p.2) ∧
          rd.lookup (truncMetric p.1 ++ "_change")
            = some (presentVal dfNew k p.2 - presentVal dfOld k p.1) ∧
          (k ∉ dfOld.rows.map Prod.fst → presentVal dfOld k p.1 = 0) ∧
          (k ∉ dfNew.rows.map Prod.fst → presentVal dfNew k p.2 = 0) := by
  have hguard : (dfEmpty dfOld && dfEmpty dfNew) = false := by
    cases ho : dfEmpty dfOld <;> cases hn2 : dfEmpty dfNew <;> simp_all
  have hcomp : compareDetails dfOld dfNew
      = (sortedUnion (dfOld.rows.map Prod.fst) (dfNew.rows.map Prod.fst)).map
          (fun k => (k, (colPairs dfOld dfNew).foldl (cdInsert dfOld dfNew k) [])) := by
    simp only [compareDetails, hguard]
    simp
  constructor
  · rw [hcomp, List.map_map]
    exact List.map_id _ ▸ rfl
  · intro k hk
    refine ⟨(colPairs dfOld dfNew).foldl (cdInsert dfOld dfNew k) [], ?_, ?_⟩
    · rw [hcomp]
      exact lookup_map_of_nodup _ _ (sortedUnion_nodup _ _) k hk
    · intro p hp
      obtain ⟨ho, hn3, hc⟩ := lookup_foldl_cdInsert dfOld dfNew k _ [] p hp hfld
      rw [cdVals_eq dfOld dfNew k p hko hkn] at ho hn3 hc
      refine ⟨ho, hn3, hc, ?_, ?_⟩
      · intro hnm
        exact presentVal_of_not_mem _ _ _ hnm
      · intro hnm
        exact presentVal_of_not_mem _ _ _ hnm

/-- C4, witness: the amended theorem on a pair of one-row tables matched
through the explicit metric-label table. -/
theorem claim4_witness :
    (compareDetails dfOldC4W dfNewC4W).map Prod.fst
      = sortedUnion (dfOldC4W.rows.map Prod.fst) (dfNewC4W.rows.map Prod.fst) :=
  (claim4_amended dfOldC4W dfNewC4W (by decide) (by decide) (by decide) (by decide)
    (by decide) (by decide)).1

/-- C8. On a well-formed input table against a sheet whose coordinate index
was found, a fault-free write-back call raises an error if and only if the
write loop wrote zero cells over all (key, column) pairs — and that error is
the diagnostic payload of counts and samples (`mkDiag`) — while any non-zero
count is returned as success (partial matching included: the count is
whatever subset of pairs resolved). -/
theorem claim8 {β : Type} (fs : FSState β) (readGrid : β → Grid)
    (applyW : β → DetailsDF → β) (df : DetailsDF)
    (h1 : dfEmpty df = false) (h2 : df.indexNames = ["Indication", "Type"])
    (h3 : (rowColMap (readGrid fs.target)).rowMap ≠ [])
    (h4 : (rowColMap (readGrid fs.target)).colMap ≠ []) :
    ((∃ e, (fillDetailsFile fs readGrid applyW df FaultPoint.noFault).1 = Except.error e)
        ↔ writtenOf (rowColMap (readGrid fs.target)) df = 0) ∧
    (writtenOf (rowColMap (readGrid fs.target)) df = 0 →
      (fillDetailsFile fs readGrid applyW df FaultPoint.noFault).1
        = Except.error (mkDiag (rowColMap (readGrid fs.target)) df)) ∧
    (writtenOf (rowColMap (readGrid fs.target)) df ≠ 0 →
      (fillDetailsFile fs readGrid applyW df FaultPoint.noFault).1
        = Except.ok (writtenOf (rowColMap (readGrid fs.target)) df)) := by
  have hv : ¬ ((dfEmpty df || df.indexNames.isEmpty
      || decide (df.indexNames ≠ ["Indication", "Type"])) = true) := by
    simp [h1, h2]
  have hctx : ¬ (((rowColMap (readGrid fs.target)).rowMap.isEmpty
      || (rowColMap (readGrid fs.target)).colMap.isEmpty) = true) := by
    simp only [Bool.or_eq_true, List.isEmpty_iff, not_or]
    exact ⟨h3, h4⟩
  simp only [fillDetailsFile]
  rw [if_neg hv, if_neg hctx]
  by_cases hw : writtenOf (rowColMap (readGrid fs.target)) df = 0
  · rw [if_pos hw]
    refine ⟨?_, fun _ => rfl, fun h0 => absurd hw h0⟩
    constructor
    · intro _
      exact hw
    · intro _
      exact ⟨mkDiag (rowColMap (readGrid fs.target)) df, rfl⟩
  · rw [if_neg hw]
    refine ⟨?_, fun h0 => absurd h0 hw, fun _ => ?_⟩
    · constructor
      · rintro ⟨e, he⟩
        simp only [atomicSave] at he
        exact absurd he (by simp)
      · intro h0
        exact absurd h0 hw
    · simp only [atomicSave]

/-- C9. If the save sequence faults anywhere between temp-file creation and
the completion of the replace step, the content of the target file is exactly its
pre-call content and no temp file is left behind; moreover, along every save
trace — faulting or not — every state before the final one still holds the
original target content: the patcher never writes directly into the target,
persisting only through the temp file and the final replace. -/
theorem claim9 {β : Type} (fs : FSState β) (readGrid : β → Grid)
    (applyW : β → DetailsDF → β) (df : DetailsDF) (fault : FaultPoint)
    (hf : fault ≠ FaultPoint.noFault) (htemp : fs.temp = TempFile.absent) :
    (fillDetailsFile fs readGrid applyW df fault).2.target = fs.target ∧
    (fillDetailsFile fs readGrid applyW df fault).2.temp = TempFile.absent ∧
    (∀ (content : β) (f2 : FaultPoint),
      ∀ s ∈ ((atomicSave fs content f2).2.2).dropLast, s.target = fs.target) := by
  have hsave : ∀ content : β, ∃ tr, atomicSave fs content fault
      = (Except.error (), { target := fs.target, temp := TempFile.absent }, tr) := by
    intro content
    cases fault
    · exact absurd rfl hf
    · exact ⟨_, rfl⟩
    · exact ⟨_, rfl⟩
    · exact ⟨_, rfl⟩
  have hfill : (fillDetailsFile fs readGrid applyW df fault).2.target = fs.target ∧
      (fillDetailsFile fs readGrid applyW df fault).2.temp = TempFile.absent := by
    obtain ⟨tr, hsv⟩ := hsave (applyW fs.target df)
    simp only [fillDetailsFile]
    split
    · exact ⟨rfl, htemp⟩
    · split
      · exact ⟨rfl, htemp⟩
      · split
        · exact ⟨rfl, htemp⟩
        · rw [hsv]
          exact ⟨rfl, rfl⟩
  refine ⟨hfill.1, hfill.2, ?_⟩
  intro content f2 s hs
  cases f2
  · simp only [atomicSave, List.dropLast, List.mem_cons, List.not_mem_nil, or_false] at hs
    rcases hs with hs | hs <;> rw [hs]
  · simp only [atomicSave, List.dropLast, List.mem_cons, List.not_mem_nil, or_false] at hs
    rw [hs]
  · simp only [atomicSave, List.dropLast, List.mem_cons, List.not_mem_nil, or_false] at hs
    rw [hs]
  · simp only [atomicSave, List.dropLast, List.mem_cons, List.not_mem_nil, or_false] at hs
    rcases hs with hs | hs <;> rw [hs]

/-- C9, witness: a save-time fault leaves the content of the target file intact. -/
theorem claim9_witness :
    (fillDetailsFile fsC9 id (fun b _ => b) dfC9 FaultPoint.saveFault).2.target
      = fsC9.target :=
  (claim9 fsC9 id (fun b _ => b) dfC9 FaultPoint.saveFault (by decide) rfl).1

/-- C8, witness: a fully matching one-cell table returns a write count of 1. -/
theorem claim8_witness :
    (fillDetailsFile fsC8 id (fun b _ => b) dfC8 FaultPoint.noFault).1 = Except.ok 1 :=
  (claim8 fsC8 id (fun b _ => b) dfC8 (by decide) (by decide) (by decide) (by decide)).2.2
    (by decide)

/-- C10. An empty input table, or one whose index is not the two-level
`(Indication, Type)` index, makes write-back fail with the input-validation
error while the file system is returned untouched — for EVERY file-reading
function, so the target file is never even consulted, let alone modified. -/
theorem claim10 {β : Type} (fs : FSState β) (readGrid : β → Grid)
    (applyW : β → DetailsDF → β) (df : DetailsDF) (fault : FaultPoint)
    (h : dfEmpty df = true ∨ df.indexNames ≠ ["Indication", "Type"]) :
    fillDetailsFile fs readGrid applyW df fault = (Except.error WriteErr.badInput, fs) := by
  simp only [fillDetailsFile]
  rw [if_pos]
  rcases h with h | h
  · simp [h]
  · simp [h]

/-- C10, witness: the validation error on the empty frame, target unread. -/
theorem claim10_witness :
    fillDetailsFile fsC10 (fun _ => ⟨[]⟩) (fun b _ => b) emptyDF FaultPoint.noFault
      = (Except.error WriteErr.badInput, fsC10) :=
  claim10 fsC10 (fun _ => ⟨[]⟩) (fun b _ => b) emptyDF FaultPoint.noFault
    (Or.inl (by decide))

end DrugCmp
